import Mathlib

/-!
Verification development for the term-quizz screen-composition engine.

The definitions below are a shallow embedding of `quizz.go`:

* Go slices of slices of strings become `List (List String)`.
* Go `int` becomes `Int`; conversions to `Nat` happen only where the
  surrounding code has already established non-negativity.
* A Go runtime panic (out-of-range slice index, negative slice bound,
  `make` with negative length) is modelled as `none`; normal return is
  `some`.
* `fatih/color`'s `color.New(attrs...).Sprintf("%s", s)` wraps `s` in an
  ANSI escape sequence; it is modelled by `ansi` below (colouring is
  modelled as always enabled).  Strings are treated as sequences of
  characters, which agrees with Go byte indexing on the ASCII data the
  program uses.
* The session's `ssh.Channel` is modelled by a boolean `chanOk`: a write
  to a healthy sink delivers the written string, a write to a failing
  sink delivers nothing; in both cases `io.Copy`'s error is discarded,
  exactly as in `PlayerSession.Update`.
-/

namespace TermQuizz

/-! ### Package-level constants (quizz.go lines 14-27) -/

def clearScreen : String := "\x1b[H\x1b[2J"

def hideCursor : String := "\x1b[?25l"

def verticalWall : String := "║"

def horizontalWall : String := "═"

def topLeft : String := "╔"

def topRight : String := "╗"

def bottomRight : String := "╝"

def bottomLeft : String := "╚"

def empty : String := " "

def crlf : String := "\r\n"

/-! ### fatih/color attribute values used by quizz.go -/

def fgCyan : Nat := 36

def fgHiRed : Nat := 91

def fgHiYellow : Nat := 93

def bgBlack : Nat := 40

/-- Model of `color.New(attrs...).Sprintf("%s", s)`: the glyph `s`
wrapped in an ANSI colour escape sequence. -/
def ansi (attrs : List Nat) (s : String) : String :=
  "\x1b[" ++ String.intercalate ";" (attrs.map toString) ++ "m" ++ s ++ "\x1b[0m"

/-! ### Grid primitives

A write `t[i][j] = v` to a Go slice-of-slices panics when an index is out
of range; `setCellO` returns `none` in exactly that case.  `tilesSet`
additionally rejects negative indices (also a panic in Go). -/

def setCellO (t : List (List String)) (i j : Nat) (v : String) :
    Option (List (List String)) :=
  match t[i]? with
  | none => none
  | some row => if j < row.length then some (t.set i (row.set j v)) else none

def tilesSet (t : List (List String)) (i j : Int) (v : String) :
    Option (List (List String)) :=
  if 0 ≤ i ∧ 0 ≤ j then setCellO t i.toNat j.toNat v else none

/-- Read of cell `(i, j)`; `none` when the read would panic in Go. -/
def cellAt (t : List (List String)) (i j : Nat) : Option String :=
  t[i]?.bind (fun row => row[j]?)

/-- The grid is a well-formed `R × C` matrix. -/
def Dims (t : List (List String)) (R C : Nat) : Prop :=
  t.length = R ∧ ∀ row ∈ t, row.length = C

instance (t : List (List String)) (R C : Nat) : Decidable (Dims t R C) := by
  unfold Dims; infer_instance

/-! ### PlayerScreen (quizz.go lines 46-143) -/

structure PlayerScreen where
  Columns : Int
  Rows : Int
  Tiles : List (List String)
  deriving DecidableEq

/-- The screen's declared dimensions are non-negative and its grid
really has that shape.  Every screen produced by `NewPlayerScreen`
satisfies this. -/
def WF (s : PlayerScreen) : Prop :=
  0 ≤ s.Rows ∧ 0 ≤ s.Columns ∧ Dims s.Tiles s.Rows.toNat s.Columns.toNat

instance (s : PlayerScreen) : Decidable (WF s) := by
  unfold WF; infer_instance

/-- `NewPlayerScreen` (quizz.go lines 52-61).  `make([][]string, rows)`
panics for negative `rows`; the inner `make([]string, columns)` panics
for negative `columns`, but only when the outer loop runs at all
(`rows > 0`).  Every cell is filled with `empty`. -/
def NewPlayerScreen (rows columns : Int) : Option PlayerScreen :=
  if rows < 0 then none
  else if 0 < rows ∧ columns < 0 then none
  else some { Columns := columns, Rows := rows,
              Tiles := List.replicate rows.toNat (List.replicate columns.toNat empty) }

/-- An `R × C` screen of blank cells, as built by `NewPlayerScreen`. -/
def blankScreen (R C : Nat) : PlayerScreen :=
  { Columns := (C : Int), Rows := (R : Int),
    Tiles := List.replicate R (List.replicate C empty) }

/-- Left-to-right concatenation of a list of strings, modelling
successive `buff.WriteString` calls. -/
def joinStr : List String → String
  | [] => ""
  | x :: rest => x ++ joinStr rest

/-- `PlayerScreen.Render` (quizz.go lines 63-73): concatenate each row's
glyphs left to right, append `"\r\n"` after every row, rows top to
bottom.  Loop bounds are the stored `Rows`/`Columns` fields; a negative
bound gives zero iterations, exactly as the Go `for` loop. -/
def PlayerScreen.Render (s : PlayerScreen) : Option String :=
  (List.range s.Rows.toNat).foldlM
    (fun acc i =>
      match (List.range s.Columns.toNat).mapM (fun j => cellAt s.Tiles i j) with
      | none => none
      | some cells => some (acc ++ joinStr cells ++ crlf))
    ""

/-- The serialization of an `R × C` blank screen: `R` rows of `C` blank
glyphs, each row followed by CRLF. -/
def blankFrame (R C : Nat) : String :=
  joinStr (List.replicate R (joinStr (List.replicate C empty) ++ crlf))

/-- The horizontal-edge loop of `DrawRect` (quizz.go lines 109-112):
`n` iterations starting at column `x`, writing glyph `v` into rows
`yT` and `yB`. -/
def hLoop (yT yB : Nat) (v : String) :
    List (List String) → Nat → Nat → Option (List (List String))
  | t, _, 0 => some t
  | t, x, n + 1 =>
    match setCellO t yT x v with
    | none => none
    | some t1 =>
      match setCellO t1 yB x v with
      | none => none
      | some t2 => hLoop yT yB v t2 (x + 1) n

/-- The vertical-edge loop of `DrawRect` (quizz.go lines 115-118):
`n` iterations starting at row `y`, writing glyph `v` into columns
`xL` and `xR`. -/
def vLoop (xL xR : Nat) (v : String) :
    List (List String) → Nat → Nat → Option (List (List String))
  | t, _, 0 => some t
  | t, y, n + 1 =>
    match setCellO t y xL v with
    | none => none
    | some t1 =>
      match setCellO t1 y xR v with
      | none => none
      | some t2 => vLoop xL xR v t2 (y + 1) n

/-- `PlayerScreen.DrawRect` (quizz.go lines 87-126).  Each of the four
coordinates is validated against the current bounds first; any failure
is a silent no-op.  Afterwards all indices are non-negative, so the
loops run over `Nat`; the horizontal loop runs for
`bottomRightX - topLeftX` iterations (`j < bottomRightX`), the vertical
loop for `bottomRightY - topLeftY`, and the four corners are written
last, in the source's order. -/
def PlayerScreen.DrawRect (s : PlayerScreen)
    (topLeftX topLeftY bottomRightX bottomRightY : Int) (fg : Nat) :
    Option PlayerScreen :=
  if topLeftX > s.Columns - 1 ∨ topLeftX < 0 then some s
  else if bottomRightX > s.Columns - 1 ∨ bottomRightX < 0 then some s
  else if topLeftY > s.Rows - 1 ∨ topLeftY < 0 then some s
  else if bottomRightY > s.Rows - 1 ∨ bottomRightY < 0 then some s
  else
    match hLoop topLeftY.toNat bottomRightY.toNat (ansi [fg] horizontalWall)
        s.Tiles topLeftX.toNat (bottomRightX.toNat - topLeftX.toNat) with
    | none => none
    | some t1 =>
      match vLoop topLeftX.toNat bottomRightX.toNat (ansi [fg] verticalWall)
          t1 topLeftY.toNat (bottomRightY.toNat - topLeftY.toNat) with
      | none => none
      | some t2 =>
        match setCellO t2 topLeftY.toNat topLeftX.toNat (ansi [fg] topLeft) with
        | none => none
        | some t3 =>
          match setCellO t3 topLeftY.toNat bottomRightX.toNat (ansi [fg] topRight) with
          | none => none
          | some t4 =>
            match setCellO t4 bottomRightY.toNat bottomRightX.toNat (ansi [fg] bottomRight) with
            | none => none
            | some t5 =>
              match setCellO t5 bottomRightY.toNat topLeftX.toNat (ansi [fg] bottomLeft) with
              | none => none
              | some t6 => some { s with Tiles := t6 }

/-- The character loop of `SetText` (quizz.go lines 140-142): write the
characters of `cs` into row `i` starting at column `j`, each wrapped in
the `fg`/`bg` colour escape. -/
def textLoop (t : List (List String)) (i j : Int) (cs : List Char) (fg bg : Nat) :
    Option (List (List String)) :=
  match cs with
  | [] => some t
  | c :: rest =>
    match tilesSet t i j (ansi [fg, bg] (String.singleton c)) with
    | none => none
    | some t1 => textLoop t1 i (j + 1) rest fg bg

/-- `PlayerScreen.SetText` (quizz.go lines 128-143), translated exactly
as written: the only coordinate check is `i > Rows - 1`; the overflow
test compares `i + len(text)` (the ROW plus the length) against
`Columns - 1`; when it fires, the text is sliced to
`text[0 : len(text) - Columns]`, which panics when that bound is
negative.  Column `j` is never validated. -/
def PlayerScreen.SetText (s : PlayerScreen) (text : String) (i j : Int)
    (fg bg : Nat) : Option PlayerScreen :=
  if i > s.Rows - 1 then some s
  else
    let cs := text.toList
    let cut : Option (List Char) :=
      if i + (cs.length : Int) > s.Columns - 1 then
        if (cs.length : Int) - s.Columns < 0 ∨
            (cs.length : Int) - s.Columns > (cs.length : Int) then none
        else some (cs.take ((cs.length : Int) - s.Columns).toNat)
      else some cs
    match cut with
    | none => none
    | some cs2 =>
      match textLoop s.Tiles i j cs2 fg bg with
      | none => none
      | some t => some { s with Tiles := t }

/-! ### Quiz data model (quizz.go lines 168-185) -/

/-- `AnswerKey` (quizz.go line 169). -/
abbrev AnswerKey := String

/-- `Question` (quizz.go lines 172-177); `time.Duration` is an integer
number of nanoseconds, and the answers map is modelled as an association
list. -/
structure Question where
  Timeout : Int
  Content : String
  Answers : List (AnswerKey × String)
  ValidAnswer : AnswerKey
  deriving DecidableEq

/-- `Quizz` (quizz.go lines 180-185). -/
structure Quizz where
  Title : String
  Difficulty : Int
  Questions : List Question
  questionIndex : Int
  deriving DecidableEq

/-- `PlayerScreen.Compute` (quizz.go lines 75-85).  The `*Quizz`
argument is a pointer the method could write through, so the embedding
passes the quiz state through and returns it alongside the screen; the
source performs no write to it, and the second `DrawRect` reads the
receiver's current `Columns`/`Rows` fields. -/
def PlayerScreen.Compute (s : PlayerScreen) (quizz : Quizz) :
    Option (PlayerScreen × Quizz) :=
  match s.DrawRect 0 0 55 (s.Rows - 1) fgCyan with
  | none => none
  | some s1 =>
    match s1.SetText quizz.Title 2 2 fgHiRed bgBlack with
    | none => none
    | some s2 =>
      match s2.DrawRect 56 0 (s2.Columns - 1) (s2.Rows - 1) fgHiYellow with
      | none => none
      | some s3 => some (s3, quizz)

/-! ### PlayerSession (quizz.go lines 29-44, 145-166)

The `ssh.Channel` output sink is modelled by `chanOk`; the per-session
mutex guards concurrent access and has no sequential content. -/

structure PlayerSession where
  chanOk : Bool
  name : String
  answers : List (AnswerKey × String)
  screen : PlayerScreen
  deriving DecidableEq

/-- `PlayerSession.UpdateWindows` (quizz.go lines 38-44): the owned
screen is replaced by a fresh blank one and `Render` is called on it
with its result discarded.  The second component is the list of writes
performed on the session's output sink: there are none. -/
def PlayerSession.UpdateWindows (s : PlayerSession) (rows columns : Int) :
    Option (PlayerSession × List String) :=
  match NewPlayerScreen rows columns with
  | none => none
  | some sc =>
    match sc.Render with
    | none => none
    | some _ => some ({ s with screen := sc }, [])

/-- `PlayerSession.Update` (quizz.go lines 156-166): recompute the
screen from the quiz state, then write clear-screen + frame +
hide-cursor to the channel in one `io.Copy` whose error is discarded.
Returns the updated session, the passed-through quiz state, and the
list of strings actually delivered to the sink (empty when the sink
fails). -/
def PlayerSession.Update (s : PlayerSession) (quizz : Quizz) :
    Option (PlayerSession × Quizz × List String) :=
  match s.screen.Compute quizz with
  | none => none
  | some r =>
    match r.1.Render with
    | none => none
    | some frame =>
      some ({ s with screen := r.1 }, r.2,
        if s.chanOk then [clearScreen ++ frame ++ hideCursor] else [])

/-- The writes delivered to one session's sink by `PlayerSession.Update`
run on its own, used to state that a broadcast tick delivers to each
session exactly what an isolated update would. -/
def deliveredOf (s : PlayerSession) (quizz : Quizz) : List String :=
  match s.Update quizz with
  | some u => u.2.2
  | none => []

/-! ### QuizzServer (quizz.go lines 187-260)

The `Sessions` map is modelled as an association list with the
broadcast's (unspecified) iteration order fixed to list order. -/

structure QuizzServer where
  currentQuizz : Quizz
  Sessions : List (String × PlayerSession)
  deriving DecidableEq

/-- The loop body of `QuizzServer.Update` (quizz.go lines 228-233):
update every session in turn against the shared quiz state, threading
the quiz state through (each call receives the same `*Quizz` pointer),
and collect each session's delivered writes. -/
def runSessions (quizz : Quizz) :
    List (String × PlayerSession) →
    Option (List (String × PlayerSession) × Quizz × List (String × List String))
  | [] => some ([], quizz, [])
  | p :: rest =>
    match p.2.Update quizz with
    | none => none
    | some u =>
      match runSessions u.2.1 rest with
      | none => none
      | some r => some ((p.1, u.1) :: r.1, r.2.1, (p.1, u.2.2) :: r.2.2)

/-- `QuizzServer.Update` (quizz.go lines 228-233), one broadcast tick:
returns the server state after the tick and, per session, the writes
delivered to that session's sink. -/
def QuizzServer.Update (q : QuizzServer) :
    Option (QuizzServer × List (String × List String)) :=
  match runSessions q.currentQuizz q.Sessions with
  | none => none
  | some r => some ({ currentQuizz := r.2.1, Sessions := r.1 }, r.2.2)

/-- Lookup in the session registry (`q.Sessions[username]`). -/
def lookupSession (l : List (String × PlayerSession)) (n : String) :
    Option PlayerSession :=
  match l with
  | [] => none
  | p :: rest => if p.1 = n then some p.2 else lookupSession rest n

/-- Store back into the session registry (`q.Sessions[username] = s`
for a key already present). -/
def replaceSession (l : List (String × PlayerSession)) (n : String)
    (s2 : PlayerSession) : List (String × PlayerSession) :=
  l.map (fun p => if p.1 = n then (p.1, s2) else p)

/-- One iteration of the broadcast loop (quizz.go lines 230-232) seen as
a transformation of the whole server state: the named session is driven
through `PlayerSession.Update` against `currentQuizz` and its updated
state stored back; the quiz pointer's final state is stored back too. -/
def serverRenderOne (srv : QuizzServer) (n : String) : Option QuizzServer :=
  match lookupSession srv.Sessions n with
  | none => some srv
  | some sess =>
    match sess.Update srv.currentQuizz with
    | none => none
    | some u =>
      some { currentQuizz := u.2.1,
             Sessions := replaceSession srv.Sessions n u.1 }

/-! ### Concrete instances used to exercise the theorems -/

/-- Modelled from the spec's words for claim C7 only: a frame of `R`
lines each of `C` blank glyphs, SEPARATED (not terminated) by CRLF.
Used to compare the spec's sentence against `Render`. -/
def serializeSeparated (R C : Nat) : String :=
  String.intercalate crlf (List.replicate R (joinStr (List.replicate C empty)))

def quizzDemo : Quizz :=
  { Title := "T", Difficulty := 100, Questions := [], questionIndex := 0 }

/-- A session whose output sink always fails. -/
def sessionA : PlayerSession :=
  { chanOk := false, name := "A", answers := [], screen := blankScreen 3 8 }

/-- A session with a healthy output sink. -/
def sessionB : PlayerSession :=
  { chanOk := true, name := "B", answers := [], screen := blankScreen 3 8 }

def serverAB : QuizzServer :=
  { currentQuizz := quizzDemo, Sessions := [("A", sessionA), ("B", sessionB)] }

def serverABRes : QuizzServer × List (String × List String) :=
  (serverAB.Update).getD (serverAB, [])

def serverABOne : QuizzServer := (serverRenderOne serverAB "B").getD serverAB

def viewerSession : PlayerSession :=
  { chanOk := true, name := "viewer", answers := [], screen := blankScreen 3 8 }

/-- A 1×1 session screen holding non-blank content. -/
def staleSession : PlayerSession :=
  { chanOk := true, name := "stale", answers := [],
    screen := { Columns := 1, Rows := 1, Tiles := [["X"]] } }

/-- The value that `DrawRect` leaves in cell `(a, b)` when all four
coordinates passed its bounds checks, written as nested conditionals in
reverse write order (the later a write happens in the source, the
earlier its test appears here). -/
def rectCell (xL yT xR yB fg : Nat) (a b : Nat) (old : Option String) :
    Option String :=
  if a = yB ∧ b = xL then some (ansi [fg] bottomLeft)
  else if a = yB ∧ b = xR then some (ansi [fg] bottomRight)
  else if a = yT ∧ b = xR then some (ansi [fg] topRight)
  else if a = yT ∧ b = xL then some (ansi [fg] topLeft)
  else if (b = xL ∨ b = xR) ∧ yT ≤ a ∧ a < yT + (yB - yT) then
    some (ansi [fg] verticalWall)
  else if (a = yT ∨ a = yB) ∧ xL ≤ b ∧ b < xL + (xR - xL) then
    some (ansi [fg] horizontalWall)
  else old

/-! ### Lemmas about the grid primitives -/

theorem setCellO_char {t : List (List String)} {R C : Nat} (hd : Dims t R C)
    (i j : Nat) (hi : i < R) (hj : j < C) (v : String) :
    ∃ t2, setCellO t i j v = some t2 ∧ Dims t2 R C ∧
      ∀ a b, cellAt t2 a b = if a = i ∧ b = j then some v else cellAt t a b := by
  obtain ⟨hlen, hrows⟩ := hd
  have hi2 : i < t.length := by omega
  have hrow : t[i]? = some t[i] := List.getElem?_eq_getElem hi2
  have hlen_row : t[i].length = C := hrows _ (List.getElem_mem hi2)
  have hj2 : j < t[i].length := by omega
  have heq : setCellO t i j v = some (t.set i (t[i].set j v)) := by
    unfold setCellO
    rw [hrow]
    simp only [hj2, if_true]
  have hdims : Dims (t.set i (t[i].set j v)) R C := by
    constructor
    · simp [hlen]
    · intro row hmemr
      rcases List.mem_or_eq_of_mem_set hmemr with h | h
      · exact hrows _ h
      · subst h; simp [hlen_row]
  refine ⟨t.set i (t[i].set j v), heq, hdims, ?_⟩
  intro a b
  by_cases ha : a = i
  · subst ha
    have h1 : (t.set a (t[a].set j v))[a]? = some (t[a].set j v) :=
      List.getElem?_set_eq_of_lt _ hi2
    by_cases hb : b = j
    · subst hb
      rw [if_pos ⟨rfl, rfl⟩]
      unfold cellAt
      rw [h1, Option.some_bind]
      exact List.getElem?_set_eq_of_lt _ hj2
    · rw [if_neg (by tauto)]
      unfold cellAt
      rw [h1, hrow, Option.some_bind, Option.some_bind]
      exact List.getElem?_set_ne (by omega)
  · rw [if_neg (by tauto)]
    unfold cellAt
    rw [List.getElem?_set_ne (by omega)]

theorem hLoop_char {R C yT yB : Nat} (hyT : yT < R) (hyB : yB < R) (v : String) :
    ∀ (n x : Nat) (t : List (List String)), Dims t R C → x + n ≤ C →
      ∃ t2, hLoop yT yB v t x n = some t2 ∧ Dims t2 R C ∧
        ∀ a b, cellAt t2 a b =
          if (a = yT ∨ a = yB) ∧ x ≤ b ∧ b < x + n then some v
          else cellAt t a b := by
  intro n
  induction n with
  | zero =>
    intro x t hd _
    exact ⟨t, rfl, hd, fun a b => by rw [if_neg (by omega)]⟩
  | succ n ih =>
    intro x t hd hxn
    obtain ⟨t1, he1, hd1, hc1⟩ := setCellO_char hd yT x hyT (by omega) v
    obtain ⟨t2, he2, hd2, hc2⟩ := setCellO_char hd1 yB x hyB (by omega) v
    obtain ⟨t3, he3, hd3, hc3⟩ := ih (x + 1) t2 hd2 (by omega)
    refine ⟨t3, ?_, hd3, ?_⟩
    · simp only [hLoop, he1, he2]
      exact he3
    · intro a b
      rw [hc3, hc2, hc1]
      split_ifs <;> first | rfl | omega

theorem vLoop_char {R C xL xR : Nat} (hxL : xL < C) (hxR : xR < C) (v : String) :
    ∀ (n y : Nat) (t : List (List String)), Dims t R C → y + n ≤ R →
      ∃ t2, vLoop xL xR v t y n = some t2 ∧ Dims t2 R C ∧
        ∀ a b, cellAt t2 a b =
          if (b = xL ∨ b = xR) ∧ y ≤ a ∧ a < y + n then some v
          else cellAt t a b := by
  intro n
  induction n with
  | zero =>
    intro y t hd _
    exact ⟨t, rfl, hd, fun a b => by rw [if_neg (by omega)]⟩
  | succ n ih =>
    intro y t hd hyn
    obtain ⟨t1, he1, hd1, hc1⟩ := setCellO_char hd y xL (by omega) hxL v
    obtain ⟨t2, he2, hd2, hc2⟩ := setCellO_char hd1 y xR (by omega) hxR v
    obtain ⟨t3, he3, hd3, hc3⟩ := ih (y + 1) t2 hd2 (by omega)
    refine ⟨t3, ?_, hd3, ?_⟩
    · simp only [vLoop, he1, he2]
      exact he3
    · intro a b
      rw [hc3, hc2, hc1]
      split_ifs <;> first | rfl | omega

theorem DrawRect_char (s : PlayerScreen) (hwf : WF s)
    (x0 y0 x1 y1 : Int) (fg : Nat)
    (hx0l : 0 ≤ x0) (hx0r : x0 ≤ s.Columns - 1)
    (hx1l : 0 ≤ x1) (hx1r : x1 ≤ s.Columns - 1)
    (hy0l : 0 ≤ y0) (hy0r : y0 ≤ s.Rows - 1)
    (hy1l : 0 ≤ y1) (hy1r : y1 ≤ s.Rows - 1) :
    ∃ s2, s.DrawRect x0 y0 x1 y1 fg = some s2 ∧
      s2.Columns = s.Columns ∧ s2.Rows = s.Rows ∧
      Dims s2.Tiles s.Rows.toNat s.Columns.toNat ∧
      ∀ a b, cellAt s2.Tiles a b =
        rectCell x0.toNat y0.toNat x1.toNat y1.toNat fg a b (cellAt s.Tiles a b) := by
  obtain ⟨hR0, hC0, hd⟩ := hwf
  have hxL : x0.toNat < s.Columns.toNat := by omega
  have hxR : x1.toNat < s.Columns.toNat := by omega
  have hyT : y0.toNat < s.Rows.toNat := by omega
  have hyB : y1.toNat < s.Rows.toNat := by omega
  obtain ⟨t1, he1, hd1, hc1⟩ :=
    hLoop_char hyT hyB (ansi [fg] horizontalWall)
      (x1.toNat - x0.toNat) x0.toNat s.Tiles hd (by omega)
  obtain ⟨t2, he2, hd2, hc2⟩ :=
    vLoop_char hxL hxR (ansi [fg] verticalWall)
      (y1.toNat - y0.toNat) y0.toNat t1 hd1 (by omega)
  obtain ⟨t3, he3, hd3, hc3⟩ := setCellO_char hd2 y0.toNat x0.toNat hyT hxL (ansi [fg] topLeft)
  obtain ⟨t4, he4, hd4, hc4⟩ := setCellO_char hd3 y0.toNat x1.toNat hyT hxR (ansi [fg] topRight)
  obtain ⟨t5, he5, hd5, hc5⟩ := setCellO_char hd4 y1.toNat x1.toNat hyB hxR (ansi [fg] bottomRight)
  obtain ⟨t6, he6, hd6, hc6⟩ := setCellO_char hd5 y1.toNat x0.toNat hyB hxL (ansi [fg] bottomLeft)
  refine ⟨{ s with Tiles := t6 }, ?_, rfl, rfl, hd6, ?_⟩
  · unfold PlayerScreen.DrawRect
    rw [if_neg (by omega), if_neg (by omega), if_neg (by omega), if_neg (by omega)]
    simp only [he1, he2, he3, he4, he5, he6]
  · intro a b
    show cellAt t6 a b = _
    rw [hc6, hc5, hc4, hc3, hc2, hc1]
    rfl

/-! ### Lemmas about `Render` on blank screens -/

theorem mapM_eq_some_map {α β : Type} (f : α → Option β) (g : α → β) :
    ∀ l : List α, (∀ a ∈ l, f a = some (g a)) → l.mapM f = some (l.map g) := by
  intro l
  induction l with
  | nil => intro _; rfl
  | cons a rest ih =>
    intro h
    rw [List.mapM_cons, h a (by simp), ih (fun x hx => h x (by simp [hx]))]
    rfl

theorem foldlM_eq_some_foldl {α β : Type} (f : β → α → Option β) (g : β → α → β) :
    ∀ (l : List α), (∀ b a, a ∈ l → f b a = some (g b a)) →
      ∀ b, l.foldlM f b = some (l.foldl g b) := by
  intro l
  induction l with
  | nil => intro _ b; rfl
  | cons a rest ih =>
    intro h b
    rw [List.foldlM_cons, h b a (by simp)]
    show Option.bind (some (g b a)) (fun init => List.foldlM f init rest) = _
    rw [Option.some_bind, ih (fun b2 x hx => h b2 x (by simp [hx])), List.foldl_cons]

theorem joinStr_snoc (l : List String) (x : String) :
    joinStr (l ++ [x]) = joinStr l ++ x := by
  induction l with
  | nil =>
    show x ++ "" = "" ++ x
    simp
  | cons a rest ih =>
    show a ++ joinStr (rest ++ [x]) = a ++ joinStr rest ++ x
    rw [ih, String.append_assoc]

theorem foldl_append_const (line : String) :
    ∀ (R : Nat) (acc : String),
      List.foldl (fun a (_ : Nat) => a ++ line) acc (List.range R) =
        acc ++ joinStr (List.replicate R line) := by
  intro R
  induction R with
  | zero =>
    intro acc
    show acc = acc ++ ""
    simp
  | succ R ih =>
    intro acc
    rw [List.range_succ, List.foldl_append, ih, List.replicate_succ', joinStr_snoc]
    simp [String.append_assoc]

theorem render_blank (R C : Nat) :
    (blankScreen R C).Render = some (blankFrame R C) := by
  have hC : (blankScreen R C).Columns.toNat = C := by simp [blankScreen]
  have hR : (blankScreen R C).Rows.toNat = R := by simp [blankScreen]
  have hcells : ∀ i : Nat, i < R →
      (List.range (blankScreen R C).Columns.toNat).mapM
        (fun j => cellAt (blankScreen R C).Tiles i j) =
      some (List.replicate C empty) := by
    intro i hi2
    rw [hC]
    have := mapM_eq_some_map (fun j => cellAt (blankScreen R C).Tiles i j)
      (fun _ => empty) (List.range C) ?_
    · rw [this]
      simp only [List.map_const', List.length_range]
    · intro j hj
      have hj2 : j < C := List.mem_range.mp hj
      unfold cellAt blankScreen
      simp [List.getElem?_replicate, hi2, hj2]
  unfold PlayerScreen.Render
  rw [hR]
  rw [foldlM_eq_some_foldl _
    (fun acc (_ : Nat) => acc ++ (joinStr (List.replicate C empty) ++ crlf))
    (List.range R) ?_ ""]
  · rw [foldl_append_const]
    show some ("" ++ blankFrame R C) = some (blankFrame R C)
    simp
  · intro b a ha
    show (match (List.range (blankScreen R C).Columns.toNat).mapM
        (fun j => cellAt (blankScreen R C).Tiles a j) with
      | none => none
      | some cells => some (b ++ joinStr cells ++ crlf)) = _
    rw [hcells a (List.mem_range.mp ha)]
    show some (b ++ joinStr (List.replicate C empty) ++ crlf) =
      some (b ++ (joinStr (List.replicate C empty) ++ crlf))
    rw [String.append_assoc]

/-- On non-negative dimensions `NewPlayerScreen` succeeds and returns
exactly the blank screen. -/
theorem NewPlayerScreen_blank (rows columns : Int)
    (hr : 0 ≤ rows) (hc : 0 ≤ columns) :
    NewPlayerScreen rows columns = some (blankScreen rows.toNat columns.toNat) := by
  unfold NewPlayerScreen blankScreen
  rw [if_neg (by omega), if_neg (by omega)]
  congr 2 <;> omega

theorem WF_blank (R C : Nat) : WF (blankScreen R C) := by
  unfold WF blankScreen Dims
  refine ⟨by simp, by simp, by simp, ?_⟩
  intro row hmem
  rw [List.eq_of_mem_replicate hmem]
  simp

/-! ### Lemmas about sessions and the broadcast tick -/

theorem Compute_quiz {s : PlayerScreen} {quizz : Quizz}
    {r : PlayerScreen × Quizz} (h : s.Compute quizz = some r) :
    r.2 = quizz := by
  rcases h1 : s.DrawRect 0 0 55 (s.Rows - 1) fgCyan with _ | s1
  · simp [PlayerScreen.Compute, h1] at h
  · rcases h2 : s1.SetText quizz.Title 2 2 fgHiRed bgBlack with _ | s2
    · simp [PlayerScreen.Compute, h1, h2] at h
    · rcases h3 : s2.DrawRect 56 0 (s2.Columns - 1) (s2.Rows - 1) fgHiYellow with _ | s3
      · simp [PlayerScreen.Compute, h1, h2, h3] at h
      · simp only [PlayerScreen.Compute, h1, h2, h3, Option.some_inj] at h
        rw [← h]

theorem Update_fields {s : PlayerSession} {quizz : Quizz}
    {u : PlayerSession × Quizz × List String} (h : s.Update quizz = some u) :
    u.1.chanOk = s.chanOk ∧ u.1.name = s.name ∧ u.1.answers = s.answers ∧
    u.2.1 = quizz := by
  rcases h1 : s.screen.Compute quizz with _ | r0
  · simp [PlayerSession.Update, h1] at h
  · rcases h2 : r0.1.Render with _ | frame
    · simp [PlayerSession.Update, h1, h2] at h
    · have hq := Compute_quiz h1
      simp only [PlayerSession.Update, h1, h2, Option.some_inj] at h
      rw [← h]
      exact ⟨rfl, rfl, rfl, hq⟩

theorem runSessions_char (quizz : Quizz) :
    ∀ (l : List (String × PlayerSession)) res, runSessions quizz l = some res →
      res.1.map Prod.fst = l.map Prod.fst ∧ res.2.1 = quizz ∧
      res.2.2 = l.map (fun p => (p.1, deliveredOf p.2 quizz)) := by
  intro l
  induction l with
  | nil =>
    intro res h
    simp only [runSessions, Option.some_inj] at h
    rw [← h]
    exact ⟨rfl, rfl, rfl⟩
  | cons p rest ih =>
    intro res h
    rcases h1 : p.2.Update quizz with _ | u
    · simp [runSessions, h1] at h
    · have hq : u.2.1 = quizz := (Update_fields h1).2.2.2
      rcases h2 : runSessions quizz rest with _ | r
      · simp [runSessions, h1, hq, h2] at h
      · simp only [runSessions, h1, hq, h2, Option.some_inj] at h
        obtain ⟨hn, hqq, ho⟩ := ih r h2
        rw [← h]
        refine ⟨by simp [hn], hqq, ?_⟩
        simp only [List.map_cons, ho]
        have hd : deliveredOf p.2 quizz = u.2.2 := by
          unfold deliveredOf
          rw [h1]
        rw [hd]

/-! ### Registry lookup/replace lemmas -/

theorem lookup_replace_ne (l : List (String × PlayerSession)) (n m : String)
    (s2 : PlayerSession) (hnm : m ≠ n) :
    lookupSession (replaceSession l n s2) m = lookupSession l m := by
  induction l with
  | nil => rfl
  | cons p rest ih =>
    unfold replaceSession lookupSession
    simp only [List.map_cons]
    by_cases hp : p.1 = n
    · rw [if_pos hp]
      have hpm : ¬ p.1 = m := by rw [hp]; exact fun hh => hnm hh.symm
      rw [if_neg hpm, if_neg hpm]
      exact ih
    · rw [if_neg hp]
      by_cases hpm : p.1 = m
      · rw [if_pos hpm, if_pos hpm]
      · rw [if_neg hpm, if_neg hpm]
        exact ih

theorem lookup_replace_self (l : List (String × PlayerSession)) (n : String)
    (s2 s1 : PlayerSession) (h : lookupSession l n = some s1) :
    lookupSession (replaceSession l n s2) n = some s2 := by
  induction l with
  | nil => simp [lookupSession] at h
  | cons p rest ih =>
    by_cases hp : p.1 = n
    · simp [lookupSession, replaceSession, hp]
    · unfold lookupSession at h
      rw [if_neg hp] at h
      simp only [replaceSession, List.map_cons, if_neg hp]
      unfold lookupSession
      rw [if_neg hp]
      exact ih h

/-- On non-negative dimensions `UpdateWindows` replaces the session's
screen by a fresh blank one of the new size and performs no write to
the output sink. -/
theorem UpdateWindows_char (s : PlayerSession) (rows columns : Int)
    (hr : 0 ≤ rows) (hc : 0 ≤ columns) :
    s.UpdateWindows rows columns =
      some ({ s with screen := blankScreen rows.toNat columns.toNat },
        ([] : List String)) := by
  simp only [PlayerSession.UpdateWindows,
    NewPlayerScreen_blank rows columns hr hc, render_blank]

/-! ### Claims -/

/-- C1 (code bug): the spec requires that when `cols - col < len(text)`,
`SetText` truncates the text to `cols - 1 - col` characters and never
panics.  On a 1×10 buffer, writing the 9-character text "ABCDEFGHI" at
row 0, column 2 satisfies `cols - col = 8 < 9`, but the source's check
`i + len(text) > cols - 1` compares the ROW (0) instead of the column,
so `0 + 9 > 9` is false, nothing is truncated, and the write runs past
column 9 and panics (modelled as `none`).  The spec's own §9 flags this
truncation arithmetic as a defect of the source. -/
theorem C1_setText_truncation_bug :
    (blankScreen 1 10).SetText "ABCDEFGHI" 0 2 fgHiRed bgBlack = none := by
  decide

/-- C2 (code bug): the spec requires every out-of-range coordinate
request to be a silent no-op that never panics.  `DrawRect` validates
all four coordinates, but `SetText` checks only `i > rows - 1`: on a
5×5 buffer, `SetText("A", -1, 0, ...)` passes that check and then
writes through the negative row index, which panics in Go (modelled as
`none`) instead of leaving the buffer unchanged. -/
theorem C2_setText_negative_row_panics :
    (blankScreen 5 5).SetText "A" (-1) 0 fgHiRed bgBlack = none := by
  decide

/-- C3 counterexample: the claim says `Resize` writes the recomputed
frame immediately to the session's output sink.  On a concrete session,
`UpdateWindows 4 9` returns with an EMPTY list of sink writes: the
source calls `Render` on the fresh blank screen and discards the
result; nothing at all is written to the channel. -/
theorem C3_cex_resize_writes_nothing :
    ((viewerSession.UpdateWindows 4 9).map Prod.snd) = some ([] : List String) := by
  decide

/-- C3 (amended): `Resize(rows, cols)` replaces the session's owned
screen buffer by a fresh blank buffer of the new size and serializes
that blank buffer with the result discarded; nothing is written to the
output sink and no frame is recomputed from the quiz state — the
redraw waits for the next broadcast tick. -/
theorem C3_resize_replaces_blank_no_write (s : PlayerSession)
    (rows columns : Int) (hr : 0 ≤ rows) (hc : 0 ≤ columns) :
    s.UpdateWindows rows columns =
      some ({ s with screen := blankScreen rows.toNat columns.toNat },
        ([] : List String)) :=
  UpdateWindows_char s rows columns hr hc

theorem C3_witness :
    (0 : Int) ≤ 4 ∧ (0 : Int) ≤ 9 ∧
    viewerSession.UpdateWindows 4 9 =
      some ({ viewerSession with screen := blankScreen 4 9 }, ([] : List String)) :=
  ⟨by decide, by decide,
    C3_resize_replaces_blank_no_write viewerSession 4 9 (by decide) (by decide)⟩

/-- C6: for all `rows, cols ≥ 0`, `NewPlayerScreen` returns a buffer
whose declared dimensions are exactly `rows × cols`, whose grid is
exactly `rows` rows of `cols` cells, and every cell is the blank
cell. -/
theorem C6_create_all_blank (rows columns : Int)
    (hr : 0 ≤ rows) (hc : 0 ≤ columns) :
    ∃ s, NewPlayerScreen rows columns = some s ∧
      s.Rows = rows ∧ s.Columns = columns ∧
      s.Tiles.length = rows.toNat ∧
      (∀ row ∈ s.Tiles, row.length = columns.toNat) ∧
      (∀ i j : Nat, i < rows.toNat → j < columns.toNat →
        cellAt s.Tiles i j = some empty) := by
  refine ⟨blankScreen rows.toNat columns.toNat,
    NewPlayerScreen_blank rows columns hr hc, by simp [blankScreen]; omega,
    by simp [blankScreen]; omega, by simp [blankScreen], ?_, ?_⟩
  · intro row hmem
    rw [List.eq_of_mem_replicate hmem]
    simp
  · intro i j hi hj
    unfold blankScreen cellAt
    simp [List.getElem?_replicate, hi, hj]

theorem C6_witness :
    (0 : Int) ≤ 2 ∧ (0 : Int) ≤ 3 ∧
    (∃ s, NewPlayerScreen 2 3 = some s ∧
      s.Rows = 2 ∧ s.Columns = 3 ∧
      s.Tiles.length = 2 ∧
      (∀ row ∈ s.Tiles, row.length = 3) ∧
      (∀ i j : Nat, i < 2 → j < 3 → cellAt s.Tiles i j = some empty)) :=
  ⟨by decide, by decide, C6_create_all_blank 2 3 (by decide) (by decide)⟩

/-- C7 counterexample: the claim says `Render` of an R×C blank buffer
produces R lines SEPARATED by CRLF pairs.  For a 1×1 blank buffer the
CRLF-separated form of one one-glyph line is just a single blank, but
`Render` emits a CRLF after the (only) line as well: the source writes
`"\r\n"` after every row, so rows are terminated, not separated. -/
theorem C7_cex_trailing_crlf :
    (blankScreen 1 1).Render = some " \x0d\n" ∧
    serializeSeparated 1 1 = " " ∧ (" \x0d\n" : String) ≠ " " := by
  refine ⟨by decide, by decide, by decide⟩

/-- C7 (amended): `Render` of an R×C blank buffer produces exactly R
lines, each exactly C glyphs wide, rows in top-to-bottom order, each
line TERMINATED by a carriage-return/line-feed pair (so consecutive
rows are separated by CRLF and the block ends with a trailing CRLF). -/
theorem C7_serialize_blank (R C : Nat) :
    (blankScreen R C).Render = some (blankFrame R C) :=
  render_blank R C

/-- C8: `Resize(r2, c2)` followed by `Render` yields the frame of a
blank r2×c2 buffer, regardless of the prior buffer's size or content:
no content from the previous buffer bleeds through. -/
theorem C8_resize_render_roundtrip (s : PlayerSession) (rows columns : Int)
    (hr : 0 ≤ rows) (hc : 0 ≤ columns) (s2 : PlayerSession) (outs : List String)
    (h : s.UpdateWindows rows columns = some (s2, outs)) :
    s2.screen.Render = some (blankFrame rows.toNat columns.toNat) := by
  have h2 := UpdateWindows_char s rows columns hr hc
  have h3 := h2.symm.trans h
  simp only [Option.some_inj, Prod.mk.injEq] at h3
  rw [← h3.1]
  exact render_blank _ _

theorem C8_witness :
    (0 : Int) ≤ 2 ∧ (0 : Int) ≤ 3 ∧
    staleSession.UpdateWindows 2 3 =
      some ({ staleSession with screen := blankScreen 2 3 }, ([] : List String)) ∧
    ({ staleSession with screen := blankScreen 2 3 } : PlayerSession).screen.Render =
      some (blankFrame 2 3) :=
  ⟨by decide, by decide, by decide,
    C8_resize_render_roundtrip staleSession 2 3 (by decide) (by decide)
      { staleSession with screen := blankScreen 2 3 } [] (by decide)⟩

/-- C5: `DrawRect` is all-or-nothing.  If any of the four coordinates
lies outside `[0, cols-1] × [0, rows-1]`, the buffer is returned
completely unchanged; otherwise (for a rectangle whose top-left corner
is strictly above-left of its bottom-right corner, as the parameter
names presuppose) all four edges and all four corners are painted, and
because the corner glyphs are written last they win over the edge
glyphs at the four corner cells. -/
theorem C5_drawRect_all_or_nothing (s : PlayerScreen) (hwf : WF s)
    (x0 y0 x1 y1 : Int) (fg : Nat) :
    ((x0 < 0 ∨ x0 > s.Columns - 1 ∨ x1 < 0 ∨ x1 > s.Columns - 1 ∨
      y0 < 0 ∨ y0 > s.Rows - 1 ∨ y1 < 0 ∨ y1 > s.Rows - 1) →
      s.DrawRect x0 y0 x1 y1 fg = some s) ∧
    (0 ≤ x0 → x0 < x1 → x1 ≤ s.Columns - 1 →
     0 ≤ y0 → y0 < y1 → y1 ≤ s.Rows - 1 →
      ∃ s2, s.DrawRect x0 y0 x1 y1 fg = some s2 ∧
        cellAt s2.Tiles y0.toNat x0.toNat = some (ansi [fg] topLeft) ∧
        cellAt s2.Tiles y0.toNat x1.toNat = some (ansi [fg] topRight) ∧
        cellAt s2.Tiles y1.toNat x1.toNat = some (ansi [fg] bottomRight) ∧
        cellAt s2.Tiles y1.toNat x0.toNat = some (ansi [fg] bottomLeft) ∧
        (∀ b : Nat, x0.toNat < b → b < x1.toNat →
          cellAt s2.Tiles y0.toNat b = some (ansi [fg] horizontalWall) ∧
          cellAt s2.Tiles y1.toNat b = some (ansi [fg] horizontalWall)) ∧
        (∀ a : Nat, y0.toNat < a → a < y1.toNat →
          cellAt s2.Tiles a x0.toNat = some (ansi [fg] verticalWall) ∧
          cellAt s2.Tiles a x1.toNat = some (ansi [fg] verticalWall))) := by
  constructor
  · intro h
    unfold PlayerScreen.DrawRect
    split_ifs with h1 h2 h3 h4
    any_goals rfl
    exfalso
    omega
  · intro hx0 hxx hx1 hy0 hyy hy1
    obtain ⟨s2, heq, _, _, _, hcell⟩ :=
      DrawRect_char s hwf x0 y0 x1 y1 fg hx0 (by omega) (by omega) hx1
        hy0 (by omega) (by omega) hy1
    have hxn : x0.toNat < x1.toNat := by omega
    have hyn : y0.toNat < y1.toNat := by omega
    refine ⟨s2, heq, ?_, ?_, ?_, ?_, ?_, ?_⟩
    · rw [hcell]
      unfold rectCell
      rw [if_neg (by omega), if_neg (by omega), if_neg (by omega),
        if_pos ⟨rfl, rfl⟩]
    · rw [hcell]
      unfold rectCell
      rw [if_neg (by omega), if_neg (by omega), if_pos ⟨rfl, rfl⟩]
    · rw [hcell]
      unfold rectCell
      rw [if_neg (by omega), if_pos ⟨rfl, rfl⟩]
    · rw [hcell]
      unfold rectCell
      rw [if_pos ⟨rfl, rfl⟩]
    · intro b hbl hbr
      constructor
      · rw [hcell]
        unfold rectCell
        rw [if_neg (by omega), if_neg (by omega), if_neg (by omega),
          if_neg (by omega), if_neg (by omega), if_pos (by omega)]
      · rw [hcell]
        unfold rectCell
        rw [if_neg (by omega), if_neg (by omega), if_neg (by omega),
          if_neg (by omega), if_neg (by omega), if_pos (by omega)]
    · intro a hal har
      constructor
      · rw [hcell]
        unfold rectCell
        rw [if_neg (by omega), if_neg (by omega), if_neg (by omega),
          if_neg (by omega), if_pos (by omega)]
      · rw [hcell]
        unfold rectCell
        rw [if_neg (by omega), if_neg (by omega), if_neg (by omega),
          if_neg (by omega), if_pos (by omega)]

theorem C5_witness :
    WF (blankScreen 4 6) ∧
    (∃ s2, (blankScreen 4 6).DrawRect 0 0 5 3 36 = some s2 ∧
      cellAt s2.Tiles 0 0 = some (ansi [36] topLeft) ∧
      cellAt s2.Tiles 0 5 = some (ansi [36] topRight) ∧
      cellAt s2.Tiles 3 5 = some (ansi [36] bottomRight) ∧
      cellAt s2.Tiles 3 0 = some (ansi [36] bottomLeft) ∧
      (∀ b : Nat, 0 < b → b < 5 →
        cellAt s2.Tiles 0 b = some (ansi [36] horizontalWall) ∧
        cellAt s2.Tiles 3 b = some (ansi [36] horizontalWall)) ∧
      (∀ a : Nat, 0 < a → a < 3 →
        cellAt s2.Tiles a 0 = some (ansi [36] verticalWall) ∧
        cellAt s2.Tiles a 5 = some (ansi [36] verticalWall))) :=
  ⟨by decide,
    (C5_drawRect_all_or_nothing (blankScreen 4 6) (by decide) 0 0 5 3 36).2
      (by decide) (by decide) (by decide) (by decide) (by decide) (by decide)⟩

/-- C10 counterexample: the claim says that for an in-bounds call with
`topLeftX > bottomRightX` OR `topLeftY > bottomRightY`, no edge glyph
is painted and exactly the four corner cells are mutated.  On a 6×6
blank buffer, `DrawRect(5, 0, 2, 3, ...)` has only the x-pair inverted;
the horizontal loop is empty but the VERTICAL loop still runs and
paints the vertical edge glyph at the non-corner cell (1, 5), which was
blank before. -/
theorem C10_cex_one_sided_inversion :
    ((blankScreen 6 6).DrawRect 5 0 2 3 36).bind (fun s2 => cellAt s2.Tiles 1 5) =
      some (ansi [36] verticalWall) ∧
    cellAt (blankScreen 6 6).Tiles 1 5 = some empty ∧
    ansi [36] verticalWall ≠ empty := by
  refine ⟨by decide, by decide, by decide⟩

/-- C10 (amended): for an in-bounds call where BOTH `topLeftX >
bottomRightX` AND `topLeftY > bottomRightY`, both edge loops are empty,
yet the four corner glyphs are still written at the four given
coordinate combinations, and every other cell of the buffer is left
unchanged — an inverted rectangle mutates exactly those corner
cells. -/
theorem C10_inverted_rect_corners_only (s : PlayerScreen) (hwf : WF s)
    (x0 y0 x1 y1 : Int) (fg : Nat)
    (hx1 : 0 ≤ x1) (hxx : x1 < x0) (hx0 : x0 ≤ s.Columns - 1)
    (hy1 : 0 ≤ y1) (hyy : y1 < y0) (hy0 : y0 ≤ s.Rows - 1) :
    ∃ s2, s.DrawRect x0 y0 x1 y1 fg = some s2 ∧
      cellAt s2.Tiles y0.toNat x0.toNat = some (ansi [fg] topLeft) ∧
      cellAt s2.Tiles y0.toNat x1.toNat = some (ansi [fg] topRight) ∧
      cellAt s2.Tiles y1.toNat x1.toNat = some (ansi [fg] bottomRight) ∧
      cellAt s2.Tiles y1.toNat x0.toNat = some (ansi [fg] bottomLeft) ∧
      ∀ a b : Nat,
        ¬((a = y0.toNat ∨ a = y1.toNat) ∧ (b = x0.toNat ∨ b = x1.toNat)) →
        cellAt s2.Tiles a b = cellAt s.Tiles a b := by
  obtain ⟨s2, heq, _, _, _, hcell⟩ :=
    DrawRect_char s hwf x0 y0 x1 y1 fg (by omega) hx0 hx1 (by omega)
      (by omega) hy0 hy1 (by omega)
  have hxn : x1.toNat < x0.toNat := by omega
  have hyn : y1.toNat < y0.toNat := by omega
  refine ⟨s2, heq, ?_, ?_, ?_, ?_, ?_⟩
  · rw [hcell]
    unfold rectCell
    rw [if_neg (by omega), if_neg (by omega), if_neg (by omega),
      if_pos ⟨rfl, rfl⟩]
  · rw [hcell]
    unfold rectCell
    rw [if_neg (by omega), if_neg (by omega), if_pos ⟨rfl, rfl⟩]
  · rw [hcell]
    unfold rectCell
    rw [if_neg (by omega), if_pos ⟨rfl, rfl⟩]
  · rw [hcell]
    unfold rectCell
    rw [if_pos ⟨rfl, rfl⟩]
  · intro a b hnc
    rw [hcell]
    unfold rectCell
    rw [if_neg (by omega), if_neg (by omega), if_neg (by omega),
      if_neg (by omega), if_neg (by omega), if_neg (by omega)]

theorem C10_witness :
    WF (blankScreen 4 6) ∧
    (∃ s2, (blankScreen 4 6).DrawRect 5 2 1 0 36 = some s2 ∧
      cellAt s2.Tiles 2 5 = some (ansi [36] topLeft) ∧
      cellAt s2.Tiles 2 1 = some (ansi [36] topRight) ∧
      cellAt s2.Tiles 0 1 = some (ansi [36] bottomRight) ∧
      cellAt s2.Tiles 0 5 = some (ansi [36] bottomLeft) ∧
      ∀ a b : Nat, ¬((a = 2 ∨ a = 0) ∧ (b = 5 ∨ b = 1)) →
        cellAt s2.Tiles a b = cellAt (blankScreen 4 6).Tiles a b) :=
  ⟨by decide,
    C10_inverted_rect_corners_only (blankScreen 4 6) (by decide) 5 2 1 0 36
      (by decide) (by decide) (by decide) (by decide) (by decide) (by decide)⟩

/-- C4 counterexample: session "A"'s output sink always fails, yet
after one broadcast tick "A" is STILL in the registry — the write
error is silently discarded by `PlayerSession.Update` and nothing ever
removes a session, refuting the claim that the failing session has
been removed. -/
theorem C4_cex_failing_session_not_removed :
    sessionA.chanOk = false ∧
    (serverAB.Update).map (fun r => r.1.Sessions.map Prod.fst) =
      some ["A", "B"] := by
  refine ⟨by decide, by decide⟩

/-- C4 (amended): a write failure on one session's sink does not
terminate the broadcast loop and does not disturb any other session:
after one tick the registry holds exactly the same sessions in the same
order (the failing session is NOT removed — the error is discarded),
the shared quiz state is unchanged, and every session's sink receives
exactly what an isolated `PlayerSession.Update` of that session against
the shared quiz state would deliver (nothing for a failing sink, the
full frame for a healthy one). -/
theorem C4_broadcast_tick_survives_failure (srv : QuizzServer)
    (srv2 : QuizzServer) (outs : List (String × List String))
    (h : srv.Update = some (srv2, outs)) :
    srv2.Sessions.map Prod.fst = srv.Sessions.map Prod.fst ∧
    srv2.currentQuizz = srv.currentQuizz ∧
    outs = srv.Sessions.map (fun p => (p.1, deliveredOf p.2 srv.currentQuizz)) := by
  rcases h1 : runSessions srv.currentQuizz srv.Sessions with _ | r
  · simp [QuizzServer.Update, h1] at h
  · simp only [QuizzServer.Update, h1, Option.some_inj] at h
    obtain ⟨hn, hq, ho⟩ := runSessions_char srv.currentQuizz srv.Sessions r h1
    have h2 : ({ currentQuizz := r.2.1, Sessions := r.1 } : QuizzServer) = srv2 :=
      congrArg Prod.fst h
    have h3 : r.2.2 = outs := congrArg Prod.snd h
    rw [← h2, ← h3]
    exact ⟨hn, hq, ho⟩

theorem C4_witness :
    serverAB.Update = some serverABRes ∧
    (serverABRes.1.Sessions.map Prod.fst = serverAB.Sessions.map Prod.fst ∧
     serverABRes.1.currentQuizz = serverAB.currentQuizz ∧
     serverABRes.2 = serverAB.Sessions.map
       (fun p => (p.1, deliveredOf p.2 serverAB.currentQuizz))) :=
  ⟨rfl, C4_broadcast_tick_survives_failure serverAB serverABRes.1 serverABRes.2 rfl⟩

/-- C9: one broadcast-loop iteration (`session.Update(q.currentQuizz)`)
mutates only that session's own screen buffer: the shared quiz state is
identical before and after, every other registry entry is untouched,
and the session's own identity, answers and sink are preserved. -/
theorem C9_render_frame_effects (srv : QuizzServer) (n : String)
    (srv2 : QuizzServer) (h : serverRenderOne srv n = some srv2) :
    srv2.currentQuizz = srv.currentQuizz ∧
    (∀ m, m ≠ n → lookupSession srv2.Sessions m = lookupSession srv.Sessions m) ∧
    (∀ s1 s2, lookupSession srv.Sessions n = some s1 →
      lookupSession srv2.Sessions n = some s2 →
      s2.name = s1.name ∧ s2.answers = s1.answers ∧ s2.chanOk = s1.chanOk) := by
  rcases hl : lookupSession srv.Sessions n with _ | sess
  · simp only [serverRenderOne, hl, Option.some_inj] at h
    rw [← h]
    refine ⟨rfl, fun m _ => rfl, ?_⟩
    intro s1 s2 h1 h2
    exact absurd h1 (by simp)
  · rcases hu : sess.Update srv.currentQuizz with _ | u
    · simp [serverRenderOne, hl, hu] at h
    · simp only [serverRenderOne, hl, hu, Option.some_inj] at h
      obtain ⟨hch, hname, hans, hq⟩ := Update_fields hu
      rw [← h]
      refine ⟨hq, ?_, ?_⟩
      · intro m hm
        exact lookup_replace_ne srv.Sessions n m u.1 hm
      · intro s1 s2 h1 h2
        have hs1 : sess = s1 := Option.some_inj.mp h1
        have h2b : lookupSession (replaceSession srv.Sessions n u.1) n = some u.1 :=
          lookup_replace_self srv.Sessions n u.1 sess hl
        have h2c : lookupSession (replaceSession srv.Sessions n u.1) n = some s2 := h2
        rw [h2b] at h2c
        have hs2 : u.1 = s2 := Option.some_inj.mp h2c
        rw [← hs2, ← hs1]
        exact ⟨hname, hans, hch⟩

theorem C9_witness :
    serverRenderOne serverAB "B" = some serverABOne ∧
    (serverABOne.currentQuizz = serverAB.currentQuizz ∧
     (∀ m, m ≠ "B" →
        lookupSession serverABOne.Sessions m = lookupSession serverAB.Sessions m) ∧
     (∀ s1 s2, lookupSession serverAB.Sessions "B" = some s1 →
        lookupSession serverABOne.Sessions "B" = some s2 →
        s2.name = s1.name ∧ s2.answers = s1.answers ∧ s2.chanOk = s1.chanOk)) :=
  ⟨rfl, C9_render_frame_effects serverAB "B" serverABOne rfl⟩

end TermQuizz
